import Mathlib

/-
Shallow embedding of the two components of lemidb/react-generic-select:
GenericMultiSelect (src/src/components/GenericMultiSelect/GenericMultiSelect.tsx)
and GenericSingleSelect (the unnamed source file).

Option records are modelled as an abstract type α together with a value-key
accessor val : α → κ (the component's valueKey projection); JavaScript === on
key values is modelled by decidable equality on κ.  Scroll geometry
(scrollTop, scrollHeight, clientHeight) is modelled with integers.  Strings
are modelled as Lean Strings, or as lists of characters where the code
lower-cases and trims them.
-/

namespace GenericSelect

section MultiSelectDefs

variable {α κ : Type} [DecidableEq κ]

/-- GenericMultiSelect.tsx lines 137-146: the new selection computed by
`toggleOption`.  If some selected option has the same value key the code
filters out every option with that key, otherwise it appends the option at
the end. -/
def toggleOption (val : α → κ) (selectedOptions : List α) (option : α) : List α :=
  if selectedOptions.any (fun o => decide (val o = val option)) then
    selectedOptions.filter (fun o => decide (val o ≠ val option))
  else
    selectedOptions ++ [option]

/-- GenericMultiSelect.tsx line 144: the argument passed to `onValueChange`
by `toggleOption`, namely the new selection mapped to value keys. -/
def toggleReported (val : α → κ) (selectedOptions : List α) (option : α) : List κ :=
  (toggleOption val selectedOptions option).map val

/-- GenericMultiSelect.tsx lines 148-152: `handleClear` empties the selection
(and reports `[]`). -/
def handleClear {α : Type} : List α :=
  []

/-- GenericMultiSelect.tsx lines 154-159: `clearExtraOptions` truncates the
selection to the first `maxCount` entries. -/
def clearExtraOptions (maxCount : Nat) (selectedOptions : List α) : List α :=
  selectedOptions.take maxCount

/-- GenericMultiSelect.tsx lines 162-170: `toggleAll` clears the selection
when `selectedOptions.length === options.length`, otherwise sets the
selection to the whole `options` list. -/
def toggleAll (options selectedOptions : List α) : List α :=
  if selectedOptions.length = options.length then [] else options

/-- The argument `toggleAll` passes to `onValueChange`: `[]` via
`handleClear` (line 150), or `options.map((o) => o[valueKey])` (line 167). -/
def toggleAllReported (val : α → κ) (options selectedOptions : List α) : List κ :=
  (toggleAll options selectedOptions).map val

/-- Number of elements of `ts` whose value key equals `k` (used to phrase the
specification-side description of toggling). -/
def countKey (val : α → κ) (k : κ) (ts : List α) : Nat :=
  ts.countP (fun t => decide (val t = k))

/-- Specification-side description of a toggle sequence, read off the spec
sentence: an entry of the sequence survives iff its toggle turned the option
on (an odd number of equal-key toggles up to and including it, the first
argument accumulating the already-processed toggles) and it is not
subsequently toggled off (no later toggle with an equal key); survivors are
listed in toggle order. -/
def specSelFrom (val : α → κ) : List α → List α → List α
  | _, [] => []
  | pre, t :: rest =>
      (if countKey val (val t) (pre ++ [t]) % 2 = 1 ∧ countKey val (val t) rest = 0
        then [t] else []) ++ specSelFrom val (pre ++ [t]) rest

/-- Specification-side selection after a whole toggle sequence. -/
def specSel (val : α → κ) (ts : List α) : List α :=
  specSelFrom val [] ts

/-- The selection after running a sequence of `toggleOption` calls starting
from the default selection `[]` (the default of the `defaultValue` prop). -/
def runToggles (val : α → κ) (ts : List α) : List α :=
  ts.foldl (toggleOption val) []

/-- One user operation on the MultiSelect selection state.  `selectAll`
carries the `options` prop current at the moment of the click, since the
prop may change between operations (e.g. by pagination). -/
inductive MOp (α : Type) where
  | toggle (option : α)
  | selectAll (options : List α)
  | clearAll
  | clearExtra (maxCount : Nat)

/-- Effect of one operation on the selection state, each case delegating to
the corresponding handler of GenericMultiSelect.tsx. -/
def applyMOp (val : α → κ) (selected : List α) : MOp α → List α
  | .toggle t => toggleOption val selected t
  | .selectAll opts => toggleAll opts selected
  | .clearAll => handleClear
  | .clearExtra k => clearExtraOptions k selected

/-- Selection state reached from `init` (the `defaultValue` prop, line 104)
by a sequence of user operations. -/
def runMOps (val : α → κ) (init : List α) (ops : List (MOp α)) : List α :=
  ops.foldl (applyMOp val) init

/-- Side condition on an operation: any `options` list handed to a
select-all click has pairwise distinct value keys. -/
def mopKeysOk (val : α → κ) : MOp α → Bool
  | .selectAll opts => decide (opts.map val).Nodup
  | _ => true

end MultiSelectDefs

section SingleSelectDefs

variable {κ : Type} [DecidableEq κ]

/-- GenericSingleSelect, CommandItem `onSelect` (unnamed file lines 183-189):
given the externally controlled `value` and the clicked option's value key,
returns the value reported to `onValueChange` (null when the clicked option
was already selected, its key otherwise) and the popover-open state after the
handler (`setIsOpen(false)` runs unconditionally). -/
def singleOnSelect (value : Option κ) (k : κ) : Option κ × Bool :=
  (if value = some k then none else some k, false)

end SingleSelectDefs

section ScrollDefs

/-- The shared `handleScroll` body (GenericMultiSelect.tsx lines 178-188 and
the unnamed file lines 83-93): number of `onLoadMore` invocations performed
by one run of the handler.  `fetchingRef` is the current value of
`isFetchingNextPageRef.current`, kept equal to the `isFetchingNextPage` prop
by the effect on lines 115-117 resp. 61-63; `hasNextPage` and `isLoading`
are the values the handler's closure captured at the effect run that
attached it, which may be stale because the effect cleanup never removes
listeners (see `lstep`). -/
def handleScrollCount (hasNextPage fetchingRef isLoading : Bool)
    (scrollTop scrollHeight clientHeight : Int) : Nat :=
  if !hasNextPage || fetchingRef then 0
  else if decide (scrollTop + clientHeight ≥ scrollHeight - 5)
      && !isLoading && !fetchingRef then 1
  else 0

/-- The prop values seen by one run of the infinite-scroll effect:
popover-open state (the container is mounted only while the popover is
open), `hasNextPage`, `isLoading`, and whether an `onLoadMore` callback is
supplied. -/
structure EffectRunProps where
  isPopoverOpen : Bool
  hasNextPage : Bool
  isLoading : Bool
  hasOnLoadMore : Bool
deriving DecidableEq

/-- Listener generation attached by one MultiSelect effect run: the attach
guard of line 176 is `!container || !hasNextPage || !onLoadMore`, and the
handler closure captures the run's `hasNextPage` and `isLoading`. -/
def multiGenOfRun (r : EffectRunProps) : List (Bool × Bool) :=
  if r.isPopoverOpen && r.hasNextPage && r.hasOnLoadMore then
    [(r.hasNextPage, r.isLoading)]
  else []

/-- Listener generation attached by one SingleSelect effect run: the attach
guard of unnamed-file line 81 is `!container || !onLoadMore`. -/
def singleGenOfRun (r : EffectRunProps) : List (Bool × Bool) :=
  if r.isPopoverOpen && r.hasOnLoadMore then
    [(r.hasNextPage, r.isLoading)]
  else []

/-- All listener generations attached to the container after a sequence of
MultiSelect effect runs during one open session: since the effect cleanup
only clears the timeout and never calls `removeEventListener` (the leak
established for C5), every attached generation persists. -/
def multiGensAccum (runs : List EffectRunProps) : List (Bool × Bool) :=
  runs.foldl (fun acc r => acc ++ multiGenOfRun r) []

/-- All listener generations attached after a sequence of SingleSelect
effect runs during one open session (same persistence as `multiGensAccum`). -/
def singleGensAccum (runs : List EffectRunProps) : List (Bool × Bool) :=
  runs.foldl (fun acc r => acc ++ singleGenOfRun r) []

/-- Total number of `onLoadMore` invocations produced by one scroll event:
the event fires every attached handler, each with its captured
`hasNextPage` and `isLoading` and the current ref value. -/
def scrollEventTotal (gens : List (Bool × Bool)) (fetchingRef : Bool)
    (scrollTop scrollHeight clientHeight : Int) : Nat :=
  (gens.map (fun g =>
    handleScrollCount g.1 fetchingRef g.2 scrollTop scrollHeight clientHeight)).sum

/-- Events in the life of one run of the infinite-scroll effect (identical
in both components): the effect body runs and schedules a 10ms timeout; the
timeout fires (attaching the two listeners when the guard passes); the
effect cleanup runs (on dependency change or unmount). -/
inductive ScrollEv where
  | effectRun
  | timerFire
  | effectCleanup

/-- Listener bookkeeping: whether the scheduled timeout is still pending and
how many listeners are attached to the container. -/
structure ListenerState where
  timerPending : Bool
  attached : Nat
deriving DecidableEq

/-- Faithful small-step semantics of the effect (GenericMultiSelect.tsx
lines 173-215, unnamed file lines 78-124).  `effectRun` schedules the
timeout.  `timerFire` attaches the scroll and wheel listeners (2 listeners)
when the guard passes; the callback's returned remover function is discarded
by `setTimeout`, so it is not recorded anywhere.  `effectCleanup` is the
function returned by the effect body, `() => clearTimeout(timeout)`: it only
cancels a still-pending timeout (`clearTimeout` after firing is a no-op) and
removes no listener. -/
def lstep (canAttach : Bool) (s : ListenerState) : ScrollEv → ListenerState
  | .effectRun => { timerPending := true, attached := s.attached }
  | .timerFire =>
      if s.timerPending then
        { timerPending := false,
          attached := s.attached + (if canAttach then 2 else 0) }
      else s
  | .effectCleanup => { timerPending := false, attached := s.attached }

/-- Run a sequence of lifecycle events. -/
def runLifecycle (canAttach : Bool) (s : ListenerState) (evs : List ScrollEv) :
    ListenerState :=
  evs.foldl (lstep canAttach) s

/-- State with no pending timer and no attached listener. -/
def lInit : ListenerState :=
  { timerPending := false, attached := 0 }

/-- The dependency list of the MultiSelect infinite-scroll effect, line 215:
`[isPopoverOpen, hasNextPage, isFetchingNextPage, onLoadMore, isLoading]`
(the function dependency modelled by its presence). -/
def multiEffectDeps (isPopoverOpen hasNextPage isFetchingNextPage
    hasOnLoadMore isLoading : Bool) : Bool × Bool × Bool × Bool × Bool :=
  (isPopoverOpen, hasNextPage, isFetchingNextPage, hasOnLoadMore, isLoading)

/-- The dependency list of the SingleSelect infinite-scroll effect, unnamed
file line 124: `[isOpen, hasNextPage, isFetchingNextPage, onLoadMore,
isLoading]`. -/
def singleEffectDeps (isOpen hasNextPage isFetchingNextPage
    hasOnLoadMore isLoading : Bool) : Bool × Bool × Bool × Bool × Bool :=
  (isOpen, hasNextPage, isFetchingNextPage, hasOnLoadMore, isLoading)

/-- React re-runs an effect after a render exactly when its dependency tuple
changed. -/
def effectReruns (old new : Bool × Bool × Bool × Bool × Bool) : Bool :=
  decide (old ≠ new)

/-- Value of `isFetchingNextPageRef.current` after a render with the given
`isFetchingNextPage` prop: the effect on lines 115-117 (resp. 61-63) copies
the prop into the ref on every change. -/
def fetchingRefAfter (isFetchingNextPage : Bool) : Bool :=
  isFetchingNextPage

end ScrollDefs

section SearchCloseDefs

/-- MultiSelect internal search text after the popover closes: the effect on
lines 122-126 resets `localSearch` to the empty string. -/
def multiSearchAfterClose : String :=
  ""

/-- SingleSelect internal search text after the popover closes: the effect
on unnamed-file lines 71-75 resets `localSearch` to the empty string. -/
def singleSearchAfterClose : String :=
  ""

/-- Arguments passed to `onSearchChange` by MultiSelect during one close of
the popover, given whether the callback is supplied and the debounced search
value at the moment of closing.  The `onOpenChange` handler (lines 220-225)
calls `onSearchChange("")` immediately; then `localSearch` is reset to `""`
and, 300ms later, the debounced value settles to `""`, so the effect on
lines 128-132 fires `onSearchChange("")` again exactly when the debounced
value actually changed, i.e. when it was nonempty.  `useDebounce` is not in
the repository; it is Modelled from the spec: a 300ms debounce whose output
equals the input after a quiet period, rescheduled on each input change. -/
def multiCloseNotifications (hasOnSearchChange : Bool) (debouncedSearch : String) :
    List String :=
  (if hasOnSearchChange then [""] else []) ++
    (if hasOnSearchChange ∧ debouncedSearch ≠ "" then [""] else [])

/-- Arguments passed to `onSearchChange` by SingleSelect during one close of
the popover.  `onOpenChange` is `setIsOpen` alone (unnamed file line 143),
and the notification effect (lines 65-69) is guarded by `isOpen`, which is
false from the close onward, so the later settling of the debounced value to
the empty string triggers no call: no notification happens at all. -/
def singleCloseNotifications (hasOnSearchChange : Bool) (debouncedSearch : String) :
    List String :=
  []

end SearchCloseDefs

section FilterDefs

/-- Lower-casing of a string (list of characters), modelling
`String.prototype.toLowerCase` on the basic latin letters the code compares. -/
def lowerL (s : List Char) : List Char :=
  s.map Char.toLower

/-- Trimming of leading and trailing whitespace, modelling
`String.prototype.trim`. -/
def trimL (s : List Char) : List Char :=
  ((s.dropWhile Char.isWhitespace).reverse.dropWhile Char.isWhitespace).reverse

/-- Substring test, modelling `String.prototype.includes`. -/
def containsL (hay needle : List Char) : Bool :=
  needle.isPrefixOf hay ||
    match hay with
    | [] => false
    | _ :: t => containsL t needle

/-- A SingleSelect option as seen by the local filter: the stringified label
`String(option[labelKey] ?? "")` and stringified key
`String(option[valueKey] ?? "")`. -/
structure SOpt where
  label : List Char
  value : List Char
deriving DecidableEq

/-- GenericSingleSelect `filteredOptions` (unnamed file lines 129-140): when
a search-change callback is supplied or the trimmed debounced term is empty,
the options are shown unfiltered; otherwise each option is kept iff its
lower-cased label or lower-cased stringified key contains
`debouncedSearch.toLowerCase().trim()`. -/
def filteredOptions (hasOnSearchChange : Bool) (debouncedSearch : List Char)
    (options : List SOpt) : List SOpt :=
  if hasOnSearchChange || (trimL debouncedSearch).isEmpty then options
  else
    options.filter (fun option =>
      let term := trimL (lowerL debouncedSearch)
      containsL (lowerL option.label) term || containsL (lowerL option.value) term)

/-- Case-insensitive substring test, as the specification words it. -/
def caseInsensitiveContains (s term : List Char) : Bool :=
  containsL (lowerL s) (lowerL term)

/-- Specification-side match predicate: the option's label or
key-as-string contains the term as a case-insensitive substring. -/
def claimMatches (term : List Char) (option : SOpt) : Bool :=
  caseInsensitiveContains option.label term ||
    caseInsensitiveContains option.value term

end FilterDefs

/-- A handler run that invokes `onLoadMore` has captured hasNextPage true,
current ref false, captured isLoading false and is within 5px of the
bottom. -/
theorem handleScrollCount_pos {hn f il : Bool} {st sh ch : Int}
    (h : 1 ≤ handleScrollCount hn f il st sh ch) :
    hn = true ∧ f = false ∧ il = false ∧ st + ch ≥ sh - 5 := by
  by_cases hbottom : st + ch ≥ sh - 5 <;>
    cases hn <;> cases f <;> cases il <;>
      simp_all [handleScrollCount] <;>
      (split at h <;> omega)

/-- One scroll event sums the head handler's invocations with the rest. -/
theorem scrollEventTotal_cons (g : Bool × Bool) (gens : List (Bool × Bool))
    (f : Bool) (st sh ch : Int) :
    scrollEventTotal (g :: gens) f st sh ch =
      handleScrollCount g.1 f g.2 st sh ch + scrollEventTotal gens f st sh ch := by
  simp [scrollEventTotal]

/-- Membership in a fold that appends per-element lists comes from the
accumulator or from some element. -/
theorem mem_foldl_append {β γ : Type} (f : γ → List β) (runs : List γ)
    (acc : List β) (g : β)
    (h : g ∈ runs.foldl (fun a r => a ++ f r) acc) :
    g ∈ acc ∨ ∃ r ∈ runs, g ∈ f r := by
  induction runs generalizing acc with
  | nil => exact Or.inl h
  | cons r rest ih =>
    rcases ih (acc ++ f r) h with h1 | ⟨r', hr', hg⟩
    · rcases List.mem_append.mp h1 with h2 | h2
      · exact Or.inl h2
      · exact Or.inr ⟨r, List.mem_cons_self r rest, h2⟩
    · exact Or.inr ⟨r', List.mem_cons_of_mem r hr', hg⟩

/-- A MultiSelect listener generation records an effect run with the popover
open and hasNextPage true, capturing that run's flags. -/
theorem mem_multiGenOfRun {g : Bool × Bool} {r : EffectRunProps}
    (h : g ∈ multiGenOfRun r) :
    r.isPopoverOpen = true ∧ r.hasNextPage = true ∧
      g = (r.hasNextPage, r.isLoading) := by
  unfold multiGenOfRun at h
  split at h
  · rename_i hc
    rw [Bool.and_eq_true, Bool.and_eq_true] at hc
    simp only [List.mem_singleton] at h
    exact ⟨hc.1.1, hc.1.2, h⟩
  · simp at h

/-- A SingleSelect listener generation records an effect run with the
popover open, capturing that run's flags. -/
theorem mem_singleGenOfRun {g : Bool × Bool} {r : EffectRunProps}
    (h : g ∈ singleGenOfRun r) :
    r.isPopoverOpen = true ∧ g = (r.hasNextPage, r.isLoading) := by
  unfold singleGenOfRun at h
  split at h
  · rename_i hc
    rw [Bool.and_eq_true] at hc
    simp only [List.mem_singleton] at h
    exact ⟨hc.1, h⟩
  · simp at h

/-- Claim C2 counterexample: effect cleanup never removes listeners, so the
gating by the current props fails.  After the popover opens with
hasNextPage=true (first effect run attaches a generation) and a later
render with hasNextPage=false (second run attaches nothing for MultiSelect,
a dead generation for SingleSelect, and removes nothing), a scroll event at
the bottom with the ref false still invokes `onLoadMore` once although no
next page is currently signaled — the claim demands zero; and after two
guard-passing effect runs in one open session (e.g. a fetch-flag flicker),
a single bottom scroll with hasNextPage=true invokes it twice — the claim
demands exactly one. -/
theorem c2_counterexample :
    scrollEventTotal (multiGensAccum
        [⟨true, true, false, true⟩, ⟨true, false, false, true⟩])
      false 95 100 5 = 1 ∧
    scrollEventTotal (singleGensAccum
        [⟨true, true, false, true⟩, ⟨true, false, false, true⟩])
      false 95 100 5 = 1 ∧
    scrollEventTotal (multiGensAccum
        [⟨true, true, false, true⟩, ⟨true, true, false, true⟩])
      false 95 100 5 = 2 := by
  decide

/-- Claim C2 (amended): each attached handler invokes the load-more callback
only when the `hasNextPage` it captured at attach time is true, the current
fetch ref is false, its captured `isLoading` is false, and the scroll
position is within 5px of the bottom; generations attach only from effect
runs with the popover open (and, for MultiSelect, with `hasNextPage` true
at attach time); and for a freshly opened popover with a single attached
generation in the state hasNextPage=true, isFetchingNextPage=false, a
scroll event at `scrollTop = scrollHeight - clientHeight - 3` yields
exactly one invocation, and an immediately following scroll event with
isFetchingNextPage=true yields zero. -/
theorem c2_per_generation_gating :
    (∀ (gens : List (Bool × Bool)) (f : Bool) (st sh ch : Int),
      1 ≤ scrollEventTotal gens f st sh ch →
        f = false ∧ st + ch ≥ sh - 5 ∧
          ∃ g ∈ gens, g.1 = true ∧ g.2 = false) ∧
    (∀ (runs : List EffectRunProps) (g : Bool × Bool),
      g ∈ multiGensAccum runs →
        ∃ r ∈ runs, r.isPopoverOpen = true ∧ r.hasNextPage = true ∧
          g = (r.hasNextPage, r.isLoading)) ∧
    (∀ (runs : List EffectRunProps) (g : Bool × Bool),
      g ∈ singleGensAccum runs →
        ∃ r ∈ runs, r.isPopoverOpen = true ∧
          g = (r.hasNextPage, r.isLoading)) ∧
    (∀ sh ch : Int,
      scrollEventTotal (multiGensAccum [⟨true, true, false, true⟩]) false
          (sh - ch - 3) sh ch = 1 ∧
      scrollEventTotal (multiGensAccum [⟨true, true, false, true⟩]) true
          (sh - ch - 3) sh ch = 0 ∧
      scrollEventTotal (singleGensAccum [⟨true, true, false, true⟩]) false
          (sh - ch - 3) sh ch = 1 ∧
      scrollEventTotal (singleGensAccum [⟨true, true, false, true⟩]) true
          (sh - ch - 3) sh ch = 0) := by
  have hb : ∀ sh ch : Int, sh - ch - 3 + ch ≥ sh - 5 := by intro sh ch; omega
  refine ⟨?_, ?_, ?_, ?_⟩
  · intro gens f st sh ch h
    induction gens with
    | nil => simp [scrollEventTotal] at h
    | cons g gens ih =>
      rw [scrollEventTotal_cons] at h
      by_cases hhead : 1 ≤ handleScrollCount g.1 f g.2 st sh ch
      · obtain ⟨h1, h2, h3, h4⟩ := handleScrollCount_pos hhead
        exact ⟨h2, h4, g, List.mem_cons_self g gens, h1, h3⟩
      · have htail : 1 ≤ scrollEventTotal gens f st sh ch := by omega
        obtain ⟨h1, h2, g', hg', h3⟩ := ih htail
        exact ⟨h1, h2, g', List.mem_cons_of_mem g hg', h3⟩
  · intro runs g h
    rcases mem_foldl_append multiGenOfRun runs [] g h with h1 | ⟨r, hr, hg⟩
    · simp at h1
    · obtain ⟨h1, h2, h3⟩ := mem_multiGenOfRun hg
      exact ⟨r, hr, h1, h2, h3⟩
  · intro runs g h
    rcases mem_foldl_append singleGenOfRun runs [] g h with h1 | ⟨r, hr, hg⟩
    · simp at h1
    · obtain ⟨h1, h2⟩ := mem_singleGenOfRun hg
      exact ⟨r, hr, h1, h2⟩
  · intro sh ch
    refine ⟨?_, ?_, ?_, ?_⟩ <;>
      simp [multiGensAccum, singleGensAccum, multiGenOfRun, singleGenOfRun,
        scrollEventTotal, handleScrollCount, hb sh ch]

/-- Witness for the amended C2 at a concrete generation list, run list and
scroll geometry: scrollHeight 100, clientHeight 5, scrollTop 92. -/
theorem c2_per_generation_gating_witness :
    (false = false ∧ (92 : Int) + 5 ≥ 100 - 5 ∧
      ∃ g ∈ [((true : Bool), (false : Bool))], g.1 = true ∧ g.2 = false) ∧
    (∃ r ∈ [EffectRunProps.mk true true false true],
      r.isPopoverOpen = true ∧ r.hasNextPage = true ∧
        ((true : Bool), (false : Bool)) = (r.hasNextPage, r.isLoading)) ∧
    (∃ r ∈ [EffectRunProps.mk true true false true],
      r.isPopoverOpen = true ∧
        ((true : Bool), (false : Bool)) = (r.hasNextPage, r.isLoading)) :=
  ⟨c2_per_generation_gating.1 [(true, false)] false 92 100 5 (by decide),
    c2_per_generation_gating.2.1 [EffectRunProps.mk true true false true]
      (true, false) (by decide),
    c2_per_generation_gating.2.2.1 [EffectRunProps.mk true true false true]
      (true, false) (by decide)⟩

/-- Claim C3 counterexample: with options `[2]` and selection `[1]` (value
key is the element itself), the selection is not the full option list, yet
`toggleAll` clears instead of selecting the full list, because it compares
lengths only. -/
theorem c3_counterexample :
    ([1] : List Nat) ≠ [2] ∧ toggleAll [2] ([1] : List Nat) = [] ∧
      toggleAll [2] ([1] : List Nat) ≠ [2] := by
  decide

/-- Claim C3 (amended): toggling select-all clears the selection (reporting
`[]`) when the selection has the same length as the option list — in
particular when it equals the full option list — and otherwise sets the
selection to the full option list, reporting all its value keys. -/
theorem c3_toggle_all_by_length {α κ : Type} [DecidableEq κ] (val : α → κ)
    (options selectedOptions : List α) :
    (selectedOptions.length = options.length →
      toggleAll options selectedOptions = [] ∧
      toggleAllReported val options selectedOptions = []) ∧
    (selectedOptions.length ≠ options.length →
      toggleAll options selectedOptions = options ∧
      toggleAllReported val options selectedOptions = options.map val) := by
  constructor
  · intro h
    simp [toggleAll, toggleAllReported, h]
  · intro h
    simp [toggleAll, toggleAllReported, h]

/-- Witness for the amended C3 at concrete inputs, exercising the clearing
branch on a same-length selection that differs from the option list. -/
theorem c3_toggle_all_by_length_witness :
    (toggleAll [2] ([1] : List Nat) = [] ∧
      toggleAllReported id [2] ([1] : List Nat) = []) ∧
    (toggleAll [3] ([] : List Nat) = [3] ∧
      toggleAllReported id [3] ([] : List Nat) = [3]) :=
  ⟨(c3_toggle_all_by_length id [2] [1]).1 (by decide),
    (c3_toggle_all_by_length id [3] []).2 (by decide)⟩

/-- Claim C4 counterexample: closing with debounced search "ab" and a
search-change callback supplied, MultiSelect invokes the callback with the
empty string twice (once from `onOpenChange`, once when the debounced value
settles to empty), and SingleSelect invokes it zero times — neither is
exactly once. -/
theorem c4_counterexample :
    (multiCloseNotifications true "ab").length = 2 ∧
      (singleCloseNotifications true "ab").length = 0 := by
  decide

/-- Claim C4 (amended): closing resets the internal search text to the empty
string in both components; with a search-change callback supplied,
MultiSelect invokes it with the empty string once immediately and a second
time when the debounced term settles to empty (i.e. exactly when it was
nonempty at closing), while SingleSelect performs no invocation on close
because its notification effect is gated on the popover being open. -/
theorem c4_close_reset_and_notifications (d : String) :
    multiSearchAfterClose = "" ∧ singleSearchAfterClose = "" ∧
    singleCloseNotifications true d = [] ∧
    multiCloseNotifications true d = "" :: (if d = "" then [] else [""]) := by
  refine ⟨rfl, rfl, rfl, ?_⟩
  by_cases h : d = "" <;> simp [multiCloseNotifications, h]

/-- Claim C5: after the effect runs, the 10ms timer fires and attaches the
scroll and wheel listeners, and the effect cleanup then runs (popover close
or unmount), both listeners are still attached: the cleanup only clears the
timeout, and the remover returned inside the `setTimeout` callback is
discarded, so the claimed teardown pairing does not hold. -/
theorem c5_listener_leak :
    (runLifecycle true lInit
      [ScrollEv.effectRun, ScrollEv.timerFire, ScrollEv.effectCleanup]).attached = 2 ∧
    (runLifecycle true lInit
      [ScrollEv.effectRun, ScrollEv.timerFire, ScrollEv.effectCleanup]).timerPending
        = false := by
  decide

/-- Claim C6 counterexample: flipping only `isFetchingNextPage` changes the
dependency tuple of the infinite-scroll effect in both components, so the
listener-setup effect is retriggered, contrary to the claim that the flag is
excluded from the re-attachment dependencies. -/
theorem c6_counterexample :
    effectReruns (multiEffectDeps true true false true false)
        (multiEffectDeps true true true true false) = true ∧
      effectReruns (singleEffectDeps true true false true false)
        (singleEffectDeps true true true true false) = true := by
  decide

/-- Claim C6 (amended): a change of the `isFetchingNextPage` prop alone both
updates the mutable ref read by the scroll handler and retriggers the
listener-setup effect, because the flag appears in the effect's dependency
list in both components. -/
theorem c6_ref_and_effect_retrigger (o hn lm il f f' : Bool) (h : f ≠ f') :
    fetchingRefAfter f' = f' ∧
    effectReruns (multiEffectDeps o hn f lm il)
      (multiEffectDeps o hn f' lm il) = true ∧
    effectReruns (singleEffectDeps o hn f lm il)
      (singleEffectDeps o hn f' lm il) = true := by
  refine ⟨rfl, ?_, ?_⟩ <;>
    · simp only [effectReruns, multiEffectDeps, singleEffectDeps,
        decide_eq_true_eq, ne_eq, Prod.mk.injEq]
      intro hc
      exact h hc.2.2.1

/-- Witness for the amended C6 at a concrete flag flip. -/
theorem c6_ref_and_effect_retrigger_witness :
    fetchingRefAfter true = true ∧
    effectReruns (multiEffectDeps true true false true false)
      (multiEffectDeps true true true true false) = true ∧
    effectReruns (singleEffectDeps true true false true false)
      (singleEffectDeps true true true true false) = true :=
  c6_ref_and_effect_retrigger true true true false false true (by decide)

/-- Characters are equal when their code points are. -/
theorem char_toNat_inj {a b : Char} (h : a.toNat = b.toNat) : a = b :=
  Char.eq_of_val_eq (UInt32.toNat.inj h)

/-- A character is whitespace exactly when its code point is 32, 9, 13 or
10. -/
theorem isWhitespace_iff_toNat (c : Char) :
    c.isWhitespace = true ↔
      (c.toNat = 32 ∨ c.toNat = 9 ∨ c.toNat = 13 ∨ c.toNat = 10) := by
  unfold Char.isWhitespace
  simp only [Bool.or_eq_true, decide_eq_true_eq]
  constructor
  · rintro (((rfl | rfl) | rfl) | rfl) <;> decide
  · rintro (h | h | h | h)
    · exact Or.inl (Or.inl (Or.inl (char_toNat_inj (by rw [h]; decide))))
    · exact Or.inl (Or.inl (Or.inr (char_toNat_inj (by rw [h]; decide))))
    · exact Or.inl (Or.inr (char_toNat_inj (by rw [h]; decide)))
    · exact Or.inr (char_toNat_inj (by rw [h]; decide))

/-- Code point of `Char.ofNat` at a valid code point. -/
theorem toNat_ofNat_valid {n : Nat} (h : n.isValidChar) :
    (Char.ofNat n).toNat = n := by
  unfold Char.ofNat
  rw [dif_pos h]
  rfl

/-- Lower-casing an upper-case latin letter adds 32 to its code point. -/
theorem toLower_toNat_of_upper {c : Char} (h : 65 ≤ c.toNat ∧ c.toNat ≤ 90) :
    (Char.toLower c).toNat = c.toNat + 32 := by
  unfold Char.toLower
  rw [if_pos ⟨h.1, h.2⟩]
  exact toNat_ofNat_valid (Or.inl (by omega))

/-- Lower-casing preserves whitespace-ness of a character. -/
theorem isWhitespace_toLower (c : Char) :
    (Char.toLower c).isWhitespace = c.isWhitespace := by
  by_cases h : 65 ≤ c.toNat ∧ c.toNat ≤ 90
  · have h1 := toLower_toNat_of_upper h
    have l1 : (Char.toLower c).isWhitespace = false := by
      cases hw : (Char.toLower c).isWhitespace
      · rfl
      · rw [isWhitespace_iff_toNat] at hw
        omega
    have l2 : c.isWhitespace = false := by
      cases hw : c.isWhitespace
      · rfl
      · rw [isWhitespace_iff_toNat] at hw
        omega
    rw [l1, l2]
  · have hc : Char.toLower c = c := by
      unfold Char.toLower
      rw [if_neg h]
    rw [hc]

/-- Trimming commutes with lower-casing, since lower-casing maps whitespace
to whitespace. -/
theorem trimL_lowerL (s : List Char) : trimL (lowerL s) = lowerL (trimL s) := by
  have hws : (Char.isWhitespace ∘ Char.toLower) = Char.isWhitespace :=
    funext fun c => isWhitespace_toLower c
  unfold trimL lowerL
  rw [List.dropWhile_map, hws, ← List.map_reverse, List.dropWhile_map, hws,
    ← List.map_reverse]

/-- Claim C8 counterexample: with no search-change callback and the
debounced term a single space (a non-empty string), the code shows the
unfiltered option list, while the claim as stated demands exactly the
options containing a space — which excludes an option labelled `x`. -/
theorem c8_counterexample :
    filteredOptions false [Char.ofNat 32]
        [⟨[Char.ofNat 120], [Char.ofNat 120]⟩] =
      [⟨[Char.ofNat 120], [Char.ofNat 120]⟩] ∧
    ([⟨[Char.ofNat 120], [Char.ofNat 120]⟩] : List SOpt).filter
        (claimMatches [Char.ofNat 32]) = [] ∧
    ([Char.ofNat 32] : List Char) ≠ [] := by
  decide

/-- Claim C8 (amended): in SingleSelect with no search-change callback and a
debounced term that is non-empty after trimming, the displayed list is
exactly the options whose label or key-as-string contains the trimmed term
as a case-insensitive substring; with a search-change callback supplied, or
with a term that trims to the empty string, the displayed list is the
unfiltered options prop. -/
theorem c8_local_filtering (d : List Char) (options : List SOpt) :
    (trimL d ≠ [] →
      filteredOptions false d options = options.filter (claimMatches (trimL d))) ∧
    (∀ hasCb : Bool, hasCb = true ∨ trimL d = [] →
      filteredOptions hasCb d options = options) := by
  constructor
  · intro h
    unfold filteredOptions
    rw [if_neg (by simp [List.isEmpty_iff, h])]
    have hp : claimMatches (trimL d) = fun option : SOpt =>
        containsL (lowerL option.label) (lowerL (trimL d)) ||
          containsL (lowerL option.value) (lowerL (trimL d)) := by
      funext o
      rfl
    rw [hp]
    simp only [trimL_lowerL]
  · rintro hasCb (rfl | he)
    · unfold filteredOptions
      rw [if_pos (by simp)]
    · unfold filteredOptions
      rw [if_pos (by simp [List.isEmpty_iff, he])]

/-- Witness for the amended C8: term `a` matches the label `A`
case-insensitively, and a supplied callback disables local filtering. -/
theorem c8_local_filtering_witness :
    (filteredOptions false [Char.ofNat 97] [⟨[Char.ofNat 65], []⟩] =
      ([⟨[Char.ofNat 65], []⟩] : List SOpt).filter
        (claimMatches (trimL [Char.ofNat 97]))) ∧
    filteredOptions true [Char.ofNat 97] [⟨[Char.ofNat 65], []⟩] =
      [⟨[Char.ofNat 65], []⟩] :=
  ⟨(c8_local_filtering [Char.ofNat 97] [⟨[Char.ofNat 65], []⟩]).1 (by decide),
    (c8_local_filtering [Char.ofNat 97] [⟨[Char.ofNat 65], []⟩]).2 true
      (Or.inl rfl)⟩

/-- Claim C7: in SingleSelect, selecting the option whose value key equals
the current value reports null to `onValueChange`, and selecting an option
with any other value key reports that key and closes the popover. -/
theorem c7_single_select_toggle {κ : Type} [DecidableEq κ]
    (value : Option κ) (k : κ) :
    (value = some k → (singleOnSelect value k).1 = none) ∧
    (value ≠ some k →
      (singleOnSelect value k).1 = some k ∧ (singleOnSelect value k).2 = false) := by
  constructor
  · intro h
    simp [singleOnSelect, h]
  · intro h
    simp [singleOnSelect, h]

/-- Witness for C7 with value key 1 selected and keys 1 resp. 2 clicked. -/
theorem c7_single_select_toggle_witness :
    (singleOnSelect (some 1 : Option Nat) 1).1 = none ∧
    ((singleOnSelect (some 1 : Option Nat) 2).1 = some 2 ∧
      (singleOnSelect (some 1 : Option Nat) 2).2 = false) :=
  ⟨(c7_single_select_toggle (some 1) 1).1 rfl,
    (c7_single_select_toggle (some 1) 2).2 (by decide)⟩

/-- Key counts add over list concatenation. -/
theorem countKey_append {α κ : Type} [DecidableEq κ] (val : α → κ) (k : κ)
    (l₁ l₂ : List α) :
    countKey val k (l₁ ++ l₂) = countKey val k l₁ + countKey val k l₂ :=
  List.countP_append _ _ _

/-- Key count of a singleton. -/
theorem countKey_singleton {α κ : Type} [DecidableEq κ] (val : α → κ) (k : κ)
    (t : α) :
    countKey val k [t] = if val t = k then 1 else 0 := by
  by_cases h : val t = k <;> simp [countKey, List.countP_cons, h]

/-- Key count of the empty list. -/
theorem countKey_nil {α κ : Type} [DecidableEq κ] (val : α → κ) (k : κ) :
    countKey val k ([] : List α) = 0 :=
  rfl

/-- Unfolding a toggle run along its last toggle. -/
theorem runToggles_append {α κ : Type} [DecidableEq κ] (val : α → κ)
    (ts : List α) (t : α) :
    runToggles val (ts ++ [t]) = toggleOption val (runToggles val ts) t := by
  simp [runToggles, List.foldl_append]

/-- A key is present in the selection after a toggle run exactly when it was
toggled an odd number of times. -/
theorem exists_key_runToggles {α κ : Type} [DecidableEq κ] (val : α → κ)
    (k : κ) (ts : List α) :
    (∃ o ∈ runToggles val ts, val o = k) ↔ countKey val k ts % 2 = 1 := by
  induction ts using List.reverseRecOn with
  | nil => simp [runToggles, countKey]
  | append_singleton ts t ih =>
    rw [runToggles_append, countKey_append, countKey_singleton]
    unfold toggleOption
    by_cases hmem : (runToggles val ts).any (fun o => decide (val o = val t))
    · rw [if_pos hmem]
      have hex : ∃ o ∈ runToggles val ts, val o = val t := by
        simpa [List.any_eq_true] using hmem
      by_cases hk : val t = k
      · subst hk
        have hodd : countKey val (val t) ts % 2 = 1 := ih.mp hex
        rw [if_pos rfl]
        constructor
        · rintro ⟨o, ho, he⟩
          rw [List.mem_filter, decide_eq_true_eq] at ho
          exact absurd he ho.2
        · intro hcontra
          omega
      · have hsame :
            (∃ o ∈ List.filter (fun o => decide (val o ≠ val t))
                (runToggles val ts), val o = k) ↔
              (∃ o ∈ runToggles val ts, val o = k) := by
          constructor
          · rintro ⟨o, ho, he⟩
            rw [List.mem_filter] at ho
            exact ⟨o, ho.1, he⟩
          · rintro ⟨o, ho, he⟩
            refine ⟨o, ?_, he⟩
            rw [List.mem_filter, decide_eq_true_eq]
            exact ⟨ho, fun hh => hk (by rw [← hh]; exact he)⟩
        rw [hsame, ih, if_neg hk, Nat.add_zero]
    · rw [if_neg hmem]
      have hnex : ∀ o ∈ runToggles val ts, ¬ val o = val t := by
        simpa [List.any_eq_true] using hmem
      by_cases hk : val t = k
      · subst hk
        have heven : ¬ countKey val (val t) ts % 2 = 1 := fun hh => by
          obtain ⟨o, ho, he⟩ := ih.mpr hh
          exact hnex o ho he
        rw [if_pos rfl]
        constructor
        · intro _
          omega
        · intro _
          exact ⟨t, by simp, rfl⟩
      · have hsame :
            (∃ o ∈ runToggles val ts ++ [t], val o = k) ↔
              (∃ o ∈ runToggles val ts, val o = k) := by
          constructor
          · rintro ⟨o, ho, he⟩
            rcases List.mem_append.mp ho with h1 | h1
            · exact ⟨o, h1, he⟩
            · rw [List.mem_singleton] at h1
              subst h1
              exact absurd he hk
          · rintro ⟨o, ho, he⟩
            exact ⟨o, List.mem_append.mpr (Or.inl ho), he⟩
        rw [hsame, ih, if_neg hk, Nat.add_zero]

/-- Unfolding a toggle run along its last toggle, phrased through key
parity: a toggle with an odd number of earlier equal-key toggles removes
every equal-key entry, otherwise it appends the option at the end. -/
theorem runToggles_concat {α κ : Type} [DecidableEq κ] (val : α → κ)
    (ts : List α) (t : α) :
    runToggles val (ts ++ [t]) =
      if countKey val (val t) ts % 2 = 1 then
        (runToggles val ts).filter (fun o => decide (val o ≠ val t))
      else runToggles val ts ++ [t] := by
  rw [runToggles_append]
  unfold toggleOption
  by_cases hmem : (runToggles val ts).any (fun o => decide (val o = val t))
  · rw [if_pos hmem, if_pos]
    exact (exists_key_runToggles val (val t) ts).mp
      (by simpa [List.any_eq_true] using hmem)
  · rw [if_neg hmem, if_neg]
    intro hodd
    obtain ⟨o, ho, he⟩ := (exists_key_runToggles val (val t) ts).mpr hodd
    exact hmem (List.any_eq_true.mpr ⟨o, ho, by simp [he]⟩)

/-- Unfolding the specification-side selection along the last toggle. -/
theorem specSelFrom_concat {α κ : Type} [DecidableEq κ] (val : α → κ)
    (t : α) (ts : List α) :
    ∀ pre : List α,
      specSelFrom val pre (ts ++ [t]) =
        (specSelFrom val pre ts).filter (fun o => decide (val o ≠ val t)) ++
          (if countKey val (val t) (pre ++ ts) % 2 = 1 then [] else [t]) := by
  induction ts with
  | nil =>
    intro pre
    simp only [List.nil_append, specSelFrom, countKey_append,
      countKey_singleton, countKey_nil, List.append_nil, List.filter_nil,
      eq_self_iff_true, if_true, and_true]
    by_cases hodd : countKey val (val t) pre % 2 = 1
    · have h1 : ¬ (countKey val (val t) pre + 1) % 2 = 1 := by omega
      simp [hodd, h1]
    · have h1 : (countKey val (val t) pre + 1) % 2 = 1 := by omega
      simp [hodd, h1]
  | cons u rest ih =>
    intro pre
    rw [List.cons_append]
    simp only [specSelFrom]
    rw [ih (pre ++ [u]), List.filter_append, List.append_assoc]
    have hsingle :
        (if countKey val (val u) (pre ++ [u]) % 2 = 1 ∧
            countKey val (val u) (rest ++ [t]) = 0 then [u] else []) =
          List.filter (fun o => decide (val o ≠ val t))
            (if countKey val (val u) (pre ++ [u]) % 2 = 1 ∧
                countKey val (val u) rest = 0 then [u] else []) := by
      have hcnt : countKey val (val u) (rest ++ [t]) =
          countKey val (val u) rest + (if val t = val u then 1 else 0) := by
        rw [countKey_append, countKey_singleton]
      rw [hcnt]
      by_cases hut : val t = val u
      · rw [if_neg (fun hc => by rw [if_pos hut] at hc; omega : ¬ (countKey val
          (val u) (pre ++ [u]) % 2 = 1 ∧ countKey val (val u) rest +
            (if val t = val u then 1 else 0) = 0))]
        by_cases hq : countKey val (val u) (pre ++ [u]) % 2 = 1 ∧
            countKey val (val u) rest = 0
        · rw [if_pos hq]
          simp [List.filter_cons, ← hut]
        · rw [if_neg hq]
          simp
      · have h0 : (if val t = val u then 1 else 0) = 0 := if_neg hut
        rw [h0, Nat.add_zero]
        by_cases hq : countKey val (val u) (pre ++ [u]) % 2 = 1 ∧
            countKey val (val u) rest = 0
        · rw [if_pos hq]
          have hne : val u ≠ val t := fun hh => hut hh.symm
          simp [List.filter_cons, hne]
        · rw [if_neg hq]
          simp
    rw [hsingle]
    simp only [List.append_assoc, List.singleton_append]

/-- The specification-side selection of a whole sequence, unfolded along the
last toggle. -/
theorem specSel_concat {α κ : Type} [DecidableEq κ] (val : α → κ)
    (ts : List α) (t : α) :
    specSel val (ts ++ [t]) =
      (specSel val ts).filter (fun o => decide (val o ≠ val t)) ++
        (if countKey val (val t) ts % 2 = 1 then [] else [t]) := by
  simpa [specSel] using specSelFrom_concat val t ts []

/-- The selection computed by the code's toggle handler over any toggle
sequence equals the specification-side selection. -/
theorem runToggles_eq_specSel {α κ : Type} [DecidableEq κ] (val : α → κ)
    (ts : List α) :
    runToggles val ts = specSel val ts := by
  induction ts using List.reverseRecOn with
  | nil => rfl
  | append_singleton ts t ih =>
    rw [runToggles_concat, specSel_concat, ih]
    by_cases hodd : countKey val (val t) ts % 2 = 1
    · rw [if_pos hodd, if_pos hodd, List.append_nil]
    · rw [if_neg hodd, if_neg hodd]
      have hnone : ∀ o ∈ runToggles val ts, ¬ val o = val t := by
        intro o ho he
        exact hodd ((exists_key_runToggles val (val t) ts).mp ⟨o, ho, he⟩)
      rw [← ih]
      have hself : List.filter (fun o => decide (val o ≠ val t))
          (runToggles val ts) = runToggles val ts :=
        List.filter_eq_self.mpr fun o ho => by simpa using hnone o ho
      rw [hself]

/-- Claim C1: for every sequence of toggleOption calls starting from the
default selection `[]`, the selection (and the key list reported to
`onValueChange`) equals the order-preserving set of options toggled on and
not subsequently toggled off, mapped to value keys; moreover a toggle
appends at the end when no selected option shares its value key and removes
every equal-key entry otherwise. -/
theorem c1_toggle_sequences {α κ : Type} [DecidableEq κ] (val : α → κ) :
    (∀ ts : List α,
      runToggles val ts = specSel val ts ∧
      (runToggles val ts).map val = (specSel val ts).map val) ∧
    (∀ (ts : List α) (t : α),
      toggleReported val (runToggles val ts) t =
        (specSel val (ts ++ [t])).map val) ∧
    (∀ (s : List α) (t : α),
      ((∀ o ∈ s, val o ≠ val t) → toggleOption val s t = s ++ [t]) ∧
      ((∃ o ∈ s, val o = val t) →
        toggleOption val s t = s.filter (fun o => decide (val o ≠ val t)))) := by
  refine ⟨fun ts => ⟨runToggles_eq_specSel val ts,
    by rw [runToggles_eq_specSel]⟩, ?_, ?_⟩
  · intro ts t
    show (toggleOption val (runToggles val ts) t).map val = _
    rw [← runToggles_append, runToggles_eq_specSel]
  · intro s t
    constructor
    · intro h
      unfold toggleOption
      rw [if_neg]
      intro hc
      obtain ⟨o, ho, hd⟩ := List.any_eq_true.mp hc
      exact h o ho (of_decide_eq_true hd)
    · intro h
      unfold toggleOption
      rw [if_pos]
      obtain ⟨o, ho, he⟩ := h
      exact List.any_eq_true.mpr ⟨o, ho, decide_eq_true he⟩

/-- Witness for C1 at concrete toggle sequences over Nat × Nat, the value
key being the first component. -/
theorem c1_toggle_sequences_witness :
    (runToggles Prod.fst ([(1, 10), (2, 20), (1, 30)] : List (Nat × Nat)) =
        specSel Prod.fst [(1, 10), (2, 20), (1, 30)] ∧
      (runToggles Prod.fst ([(1, 10), (2, 20), (1, 30)] : List (Nat × Nat))).map
          Prod.fst =
        (specSel Prod.fst [(1, 10), (2, 20), (1, 30)]).map Prod.fst) ∧
    toggleReported Prod.fst
        (runToggles Prod.fst ([(1, 10), (2, 20)] : List (Nat × Nat))) (2, 21) =
      (specSel Prod.fst ([(1, 10), (2, 20)] ++ [(2, 21)])).map Prod.fst ∧
    toggleOption Prod.fst ([(1, 10)] : List (Nat × Nat)) (2, 20) =
      [(1, 10)] ++ [(2, 20)] ∧
    toggleOption Prod.fst ([(1, 10), (2, 20)] : List (Nat × Nat)) (1, 40) =
      List.filter (fun o => decide (Prod.fst o ≠ Prod.fst ((1, 40) : Nat × Nat)))
        [(1, 10), (2, 20)] :=
  ⟨(c1_toggle_sequences Prod.fst).1 [(1, 10), (2, 20), (1, 30)],
    (c1_toggle_sequences Prod.fst).2.1 [(1, 10), (2, 20)] (2, 21),
    ((c1_toggle_sequences Prod.fst).2.2 [(1, 10)] (2, 20)).1 (by decide),
    ((c1_toggle_sequences Prod.fst).2.2 [(1, 10), (2, 20)] (1, 40)).2
      ⟨(1, 10), by decide, rfl⟩⟩

/-- Preservation of key distinctness by one MultiSelect operation, provided
a select-all click never receives an options list with duplicated keys. -/
theorem nodup_applyMOp {α κ : Type} [DecidableEq κ] (val : α → κ)
    (sel : List α) (op : MOp α) (hs : (sel.map val).Nodup)
    (hop : mopKeysOk val op = true) :
    ((applyMOp val sel op).map val).Nodup := by
  cases op with
  | toggle t =>
    show ((toggleOption val sel t).map val).Nodup
    unfold toggleOption
    by_cases h : sel.any (fun o => decide (val o = val t))
    · rw [if_pos h]
      exact hs.sublist ((List.filter_sublist _).map val)
    · rw [if_neg h]
      rw [List.map_append]
      rw [List.nodup_append]
      refine ⟨hs, List.nodup_singleton _, ?_⟩
      intro x hx hxt
      simp only [List.map_cons, List.map_nil, List.mem_singleton] at hxt
      subst hxt
      obtain ⟨o, ho, he⟩ := List.mem_map.mp hx
      exact h (List.any_eq_true.mpr ⟨o, ho, by simp [he]⟩)
  | selectAll opts =>
    show ((toggleAll opts sel).map val).Nodup
    unfold toggleAll
    split
    · simp
    · simpa [mopKeysOk] using hop
  | clearAll =>
    simp [applyMOp, handleClear]
  | clearExtra k =>
    show ((clearExtraOptions k sel).map val).Nodup
    exact hs.sublist ((List.take_sublist _ _).map val)

/-- Claim C9 counterexample: with an options list whose two entries share
the value key 1 (key = first component), starting from the empty default,
the single reachable-state sequence `[selectAll]` produces a selection whose
keys are not pairwise distinct — so the claim quantified over every options
list fails. -/
theorem c9_counterexample :
    runMOps Prod.fst ([] : List (Nat × Nat)) [MOp.selectAll [(1, 0), (1, 1)]] =
        [(1, 0), (1, 1)] ∧
      ¬ ((runMOps Prod.fst ([] : List (Nat × Nat))
            [MOp.selectAll [(1, 0), (1, 1)]]).map Prod.fst).Nodup := by
  decide

/-- Claim C9 (amended): whenever the `defaultValue` has pairwise distinct
value keys and every options list handed to a select-all click has pairwise
distinct value keys, every selection state reachable by any sequence of
toggleOption, toggleAll, handleClear and clearExtraOptions operations has
pairwise distinct value keys. -/
theorem c9_nodup_keys {α κ : Type} [DecidableEq κ] (val : α → κ)
    (init : List α) (ops : List (MOp α)) (hinit : (init.map val).Nodup)
    (hops : ops.all (mopKeysOk val) = true) :
    ((runMOps val init ops).map val).Nodup := by
  induction ops generalizing init with
  | nil => exact hinit
  | cons op rest ih =>
    rw [List.all_cons, Bool.and_eq_true] at hops
    exact ih (applyMOp val init op) (nodup_applyMOp val init op hinit hops.1)
      hops.2

/-- Witness for the amended C9: a default with distinct keys and a sequence
of all four operations with distinct-key options. -/
theorem c9_nodup_keys_witness :
    ((runMOps Prod.fst ([(5, 0)] : List (Nat × Nat))
        [MOp.toggle (6, 1), MOp.selectAll [(7, 0), (8, 0)], MOp.clearExtra 1,
          MOp.toggle (9, 2)]).map Prod.fst).Nodup :=
  c9_nodup_keys Prod.fst [(5, 0)]
    [MOp.toggle (6, 1), MOp.selectAll [(7, 0), (8, 0)], MOp.clearExtra 1,
      MOp.toggle (9, 2)] (by decide) (by decide)

/-- Claim C10: activating any option in the SingleSelect list closes the
popover unconditionally — in particular, toggling off the currently selected
option reports null and the popover still closes. -/
theorem c10_close_on_any_activation {κ : Type} [DecidableEq κ]
    (value : Option κ) (k : κ) :
    (singleOnSelect value k).2 = false ∧
    (value = some k →
      (singleOnSelect value k).1 = none ∧ (singleOnSelect value k).2 = false) := by
  refine ⟨rfl, fun h => ⟨by simp [singleOnSelect, h], rfl⟩⟩

/-- Witness for C10 at the toggle-off case. -/
theorem c10_close_on_any_activation_witness :
    (singleOnSelect (some 3 : Option Nat) 3).2 = false ∧
    ((singleOnSelect (some 3 : Option Nat) 3).1 = none ∧
      (singleOnSelect (some 3 : Option Nat) 3).2 = false) :=
  ⟨(c10_close_on_any_activation (some 3) 3).1,
    (c10_close_on_any_activation (some 3) 3).2 rfl⟩

end GenericSelect
